import Mathlib

/-!
Shallow embedding of the tree-walking interpreter in
src/ir/ast.rs and src/interpreter/interpreter.rs.

Modelling conventions:
* Rust i32 is modelled by Int; the saturating f64 round-trip cast that the
  interpreter performs on integer arithmetic is modelled by exact integer
  arithmetic followed by an explicit clamp to the i32 bounds (see i32Sat).
* Rust f64 is modelled by the exact rationals (Rat).  No claim settled here
  depends on the value of a real-valued computation.
* Rust HashMap is modelled by an association list with replace-on-insert
  semantics (mapGet / mapInsert / mapAdjust).  A Rust HashMap cannot contain
  duplicate keys and its iteration order is irrelevant everywhere except the
  function-copy loop of call, where the per-frame iteration order does not
  affect the result (a map has at most one entry per name).
* A Rust panic (unwrap on None, unreachable) is modelled by the Res.crash
  outcome; Result::Err is Res.fail; divergence is cut off by an explicit
  fuel parameter, exhaustion being the artificial outcome Res.fuelOut.
* Every recursive interpreter function spends one unit of fuel per call, so
  the whole mutual block is structurally recursive on the fuel and concrete
  programs evaluate by definitional reduction.
-/

namespace RPyInterp

abbrev Name := String

mutual
/-- Type from ast.rs (renamed Ty: Lean reserves the word Type). -/
inductive Ty : Type where
  | TInteger : Ty
  | TBool : Ty
  | TReal : Ty
  | TString : Ty
  | TVoid : Ty
  | TFunction : Option Ty → List Ty → Ty
  | TList : Ty → Ty
  | TTuple : List Ty → Ty
  | TMaybe : Ty → Ty
  | TResult : Ty → Ty → Ty
  | TAny : Ty
  | Tadt : Name → List ValueConstructor → Ty

/-- ValueConstructor from ast.rs: a constructor name plus ordered field types. -/
inductive ValueConstructor : Type where
  | mk : Name → List Ty → ValueConstructor
end

/-- Accessor for the constructor name field of ValueConstructor. -/
def ValueConstructor.name : ValueConstructor → Name
  | .mk n _ => n

/-- Accessor for the field types of ValueConstructor. -/
def ValueConstructor.types : ValueConstructor → List Ty
  | .mk _ ts => ts

/-- Expression from ast.rs.  CInt carries Int (Rust i32), CReal carries Rat
(exact model of Rust f64). -/
inductive Expression : Type where
  | CTrue : Expression
  | CFalse : Expression
  | CInt : Int → Expression
  | CReal : Rat → Expression
  | CString : String → Expression
  | CVoid : Expression
  | Var : Name → Expression
  | FuncCall : Name → List Expression → Expression
  | Add : Expression → Expression → Expression
  | Sub : Expression → Expression → Expression
  | Mul : Expression → Expression → Expression
  | Div : Expression → Expression → Expression
  | And : Expression → Expression → Expression
  | Or : Expression → Expression → Expression
  | Not : Expression → Expression
  | EQ : Expression → Expression → Expression
  | GT : Expression → Expression → Expression
  | LT : Expression → Expression → Expression
  | GTE : Expression → Expression → Expression
  | LTE : Expression → Expression → Expression
  | COk : Expression → Expression
  | CErr : Expression → Expression
  | CJust : Expression → Expression
  | CNothing : Expression
  | Unwrap : Expression → Expression
  | IsError : Expression → Expression
  | IsNothing : Expression → Expression
  | Propagate : Expression → Expression
  | ADTConstructor : Name → Name → List Expression → Expression

mutual
/-- Statement from ast.rs. -/
inductive Statement : Type where
  | VarDeclaration : Name → Statement
  | ValDeclaration : Name → Statement
  | Assignment : Name → Expression → Option Ty → Statement
  | IfThenElse : Expression → Statement → Option Statement → Statement
  | While : Expression → Statement → Statement
  | Block : List Statement → Statement
  | Sequence : Statement → Statement → Statement
  | AssertTrue : Expression → String → Statement
  | AssertFalse : Expression → String → Statement
  | AssertEQ : Expression → Expression → String → Statement
  | AssertNEQ : Expression → Expression → String → Statement
  | TestDef : Function → Statement
  | ModTestDef : Name → Statement → Statement
  | AssertFails : String → Statement
  | FuncDef : Function → Statement
  | Return : Expression → Statement
  | ADTDeclaration : Name → List ValueConstructor → Statement
  | Match : Expression → List (Expression × Statement) → Statement

/-- Function from ast.rs: name, optional return type, optional parameter
list, optional body. -/
inductive Function : Type where
  | mk : Name → Option Ty → Option (List (Name × Ty)) → Option Statement → Function
end

/-- Accessor for the name field of Function. -/
def Function.name : Function → Name
  | .mk n _ _ _ => n

/-- Accessor for the declared return type of Function. -/
def Function.kind : Function → Option Ty
  | .mk _ k _ _ => k

/-- Accessor for the parameter list of Function. -/
def Function.params : Function → Option (List (Name × Ty))
  | .mk _ _ p _ => p

/-- Accessor for the body of Function. -/
def Function.body : Function → Option Statement
  | .mk _ _ _ b => b

/-- Function::new from ast.rs: the main scope function. -/
def Function.new : Function := .mk "__main__" none none none

mutual
/-- EnvValue from interpreter.rs: the runtime value type. -/
inductive EnvValue : Type where
  | Exp : Expression → EnvValue
  | Func : Function → EnvValue
  | TestEnv : TestEnvironment → EnvValue

/-- TestEnvironment from ast.rs, instantiated at EnvValue. -/
inductive TestEnvironment : Type where
  | mk : Name → Environment → TestEnvironment

/-- Environment from ast.rs, instantiated at EnvValue: active scope function,
recursion depth, frame table keyed by (name, depth), global ADT table. -/
inductive Environment : Type where
  | mk : Function → Int → List ((Name × Int) × Frame) →
         List (Name × List ValueConstructor) → Environment

/-- Frame from ast.rs, instantiated at EnvValue. -/
inductive Frame : Type where
  | mk : Option Function → Option (Name × Int) → List (Name × EnvValue) →
         List (Name × Function) → Frame
end

/-- Accessor for the parent function backup of a Frame. -/
def Frame.parentFunction : Frame → Option Function
  | .mk p _ _ _ => p

/-- Accessor for the parent lookup key of a Frame. -/
def Frame.parentKey : Frame → Option (Name × Int)
  | .mk _ k _ _ => k

/-- Accessor for the variable bindings of a Frame. -/
def Frame.variables : Frame → List (Name × EnvValue)
  | .mk _ _ v _ => v

/-- Accessor for the registered tests of a Frame. -/
def Frame.tests : Frame → List (Name × Function)
  | .mk _ _ _ t => t

/-- Frame::new from ast.rs. -/
def Frame.new (func : Option Function) (key : Option (Name × Int)) : Frame :=
  .mk func key [] []

/-- Accessor for the active scope function of an Environment. -/
def Environment.scope : Environment → Function
  | .mk s _ _ _ => s

/-- Accessor for the recursion depth of an Environment. -/
def Environment.recursion : Environment → Int
  | .mk _ r _ _ => r

/-- Accessor for the frame table of an Environment. -/
def Environment.stack : Environment → List ((Name × Int) × Frame)
  | .mk _ _ st _ => st

/-- Accessor for the global ADT table of an Environment. -/
def Environment.typeEnv : Environment → List (Name × List ValueConstructor)
  | .mk _ _ _ te => te

/-- Association-list lookup modelling HashMap::get. -/
def mapGet {α β : Type} [DecidableEq α] : List (α × β) → α → Option β
  | [], _ => none
  | (k, v) :: rest, k' => if k = k' then some v else mapGet rest k'

/-- Association-list insert modelling HashMap::insert (replace on existing
key, append otherwise). -/
def mapInsert {α β : Type} [DecidableEq α] : List (α × β) → α → β → List (α × β)
  | [], k, v => [(k, v)]
  | (k', v') :: rest, k, v =>
      if k' = k then (k, v) :: rest else (k', v') :: mapInsert rest k v

/-- In-place update of an existing entry, modelling HashMap::get_mut followed
by a mutation; absent keys leave the map unchanged. -/
def mapAdjust {α β : Type} [DecidableEq α] : List (α × β) → α → (β → β) → List (α × β)
  | [], _, _ => []
  | (k', v') :: rest, k, f =>
      if k' = k then (k', f v') :: rest else (k', v') :: mapAdjust rest k f

/-- Environment::new from ast.rs. -/
def Environment.new : Environment :=
  .mk Function.new 0 [(("__main__", 0), Frame.new none none)] []

/-- Environment::scope_name from ast.rs. -/
def Environment.scopeName (env : Environment) : Name := env.scope.name

/-- Environment::scope_key from ast.rs. -/
def Environment.scopeKey (env : Environment) : Name × Int :=
  (env.scopeName, env.recursion)

/-- Environment::get_frame from ast.rs returns a reference and unwraps; the
Option result lets each call site model the panic on a missing key. -/
def Environment.getFrame? (env : Environment) (key : Name × Int) : Option Frame :=
  mapGet env.stack key

/-- Pure part of Environment::search_frame from ast.rs: variable lookup in
the active frame only (the unwrap on a missing active frame is modelled at
the call sites). -/
def Environment.searchFrameOpt (env : Environment) (name : Name) : Option EnvValue :=
  match env.getFrame? env.scopeKey with
  | none => none
  | some f => mapGet f.variables name

/-- Environment::insert_variable from ast.rs: bind name in the active frame;
if the active frame key is absent the environment is unchanged (the Rust
code silently does nothing in that case). -/
def Environment.insertVariable (env : Environment) (name : Name) (v : EnvValue) :
    Environment :=
  .mk env.scope env.recursion
    (mapAdjust env.stack env.scopeKey
      (fun fr => .mk fr.parentFunction fr.parentKey
        (mapInsert fr.variables name v) fr.tests))
    env.typeEnv

/-- Environment::insert_test from ast.rs. -/
def Environment.insertTest (env : Environment) (name : Name) (t : Function) :
    Environment :=
  .mk env.scope env.recursion
    (mapAdjust env.stack env.scopeKey
      (fun fr => .mk fr.parentFunction fr.parentKey
        fr.variables (mapInsert fr.tests name t)))
    env.typeEnv

/-- Environment::insert_type from ast.rs. -/
def Environment.insertType (env : Environment) (name : Name)
    (cs : List ValueConstructor) : Environment :=
  .mk env.scope env.recursion env.stack (mapInsert env.typeEnv name cs)

/-- Environment::get_type from ast.rs. -/
def Environment.getType (env : Environment) (name : Name) :
    Option (List ValueConstructor) :=
  mapGet env.typeEnv name

/-- ErrorMessage from interpreter.rs: message plus optional carried
expression (the payload of the Propagate sentinel). -/
abbrev ErrorMessage := String × Option Expression

/-- Outcome of running a piece of interpreter code: Result::Ok, Result::Err,
a Rust panic (crash), or exhaustion of the artificial fuel (fuelOut). -/
inductive Res (α : Type) : Type where
  | ok (a : α)
  | fail (e : ErrorMessage)
  | crash
  | fuelOut

/-- Sequencing that mirrors the Rust question-mark operator: failures, panics
and fuel exhaustion short-circuit. -/
def evBind {α β : Type} (r : Res α) (k : α → Res β) : Res β :=
  match r with
  | .ok a => k a
  | .fail e => .fail e
  | .crash => .crash
  | .fuelOut => .fuelOut

/-- ControlFlow from interpreter.rs. -/
inductive ControlFlow : Type where
  | Continue (env : Environment)
  | Return (v : EnvValue)

/-- is_constant from interpreter.rs. -/
def isConstant : Expression → Bool
  | .CTrue => true
  | .CFalse => true
  | .CVoid => true
  | .CInt _ => true
  | .CReal _ => true
  | .CString _ => true
  | .CNothing => true
  | _ => false

/-- Structural equality of an evaluated expression against a constant
pattern.  The Rust code uses the derived PartialEq on Expression, but its
only use site (matches_pattern) guards the right operand with is_constant,
so equality degenerates to this comparison of atoms.  (The f64 payload is
modelled by Rat, which cannot express the NaN-is-unequal-to-itself corner
of the Rust comparison; no claim settled here depends on it.) -/
def expEqConst : Expression → Expression → Bool
  | .CTrue, .CTrue => true
  | .CFalse, .CFalse => true
  | .CVoid, .CVoid => true
  | .CNothing, .CNothing => true
  | .CInt a, .CInt b => a = b
  | .CReal a, .CReal b => a = b
  | .CString a, .CString b => a = b
  | _, _ => false

/-- i32::MAX. -/
def i32Max : Int := 2147483647

/-- i32::MIN. -/
def i32Min : Int := -2147483648

/-- Saturating truncation to the i32 range: model of the Rust
"f64 as i32" cast applied to an exactly-represented value. -/
def i32Sat (x : Int) : Int :=
  if x > i32Max then i32Max else if x < i32Min then i32Min else x

/-- Post-evaluation dispatch of eval_binary_arith_op from interpreter.rs.
The single f64 closure of the Rust code is modelled by its exact
restrictions: opI on the integer-integer case (the f64 round trip composed
with the saturating cast) and opR on the cases with a real operand. -/
def arithValues (v1 v2 : EnvValue) (opI : Int → Int → Int) (opR : Rat → Rat → Rat)
    (msg : String) : Res EnvValue :=
  match v1, v2 with
  | .Exp (.CInt a), .Exp (.CInt b) => .ok (.Exp (.CInt (opI a b)))
  | .Exp (.CInt a), .Exp (.CReal b) => .ok (.Exp (.CReal (opR (a : Rat) b)))
  | .Exp (.CReal a), .Exp (.CInt b) => .ok (.Exp (.CReal (opR a (b : Rat))))
  | .Exp (.CReal a), .Exp (.CReal b) => .ok (.Exp (.CReal (opR a b)))
  | _, _ => .fail (msg, none)

/-- Integer case of add: exact sum clamped by the saturating cast
(the f64 sum of two i32 values is exact). -/
def addInt (a b : Int) : Int := i32Sat (a + b)

/-- Integer case of sub. -/
def subInt (a b : Int) : Int := i32Sat (a - b)

/-- Integer case of mul: the clamp absorbs any f64 rounding, since rounding
only occurs for products beyond the i32 bounds. -/
def mulInt (a b : Int) : Int := i32Sat (a * b)

/-- Integer case of div: truncating quotient with the saturating cast; the
division-by-zero case mirrors the saturated cast of the f64 infinity (and
of NaN for zero over zero). -/
def divInt (a b : Int) : Int :=
  if b = 0 then (if a > 0 then i32Max else if a < 0 then i32Min else 0)
  else i32Sat (Int.tdiv a b)

/-- Post-evaluation dispatch of eval_binary_boolean_op from interpreter.rs. -/
def boolValues (v1 v2 : EnvValue) (op : Bool → Bool → Expression) (msg : String) :
    Res EnvValue :=
  match v1, v2 with
  | .Exp .CTrue, .Exp .CTrue => .ok (.Exp (op true true))
  | .Exp .CTrue, .Exp .CFalse => .ok (.Exp (op true false))
  | .Exp .CFalse, .Exp .CTrue => .ok (.Exp (op false true))
  | .Exp .CFalse, .Exp .CFalse => .ok (.Exp (op false false))
  | _, _ => .fail (msg, none)

/-- Post-evaluation dispatch of eval_binary_rel_op from interpreter.rs; the
f64 comparison of exactly-cast operands is modelled by the exact rational
comparison. -/
def relValues (v1 v2 : EnvValue) (op : Rat → Rat → Expression) (msg : String) :
    Res EnvValue :=
  match v1, v2 with
  | .Exp (.CInt a), .Exp (.CInt b) => .ok (.Exp (op (a : Rat) (b : Rat)))
  | .Exp (.CInt a), .Exp (.CReal b) => .ok (.Exp (op (a : Rat) b))
  | .Exp (.CReal a), .Exp (.CInt b) => .ok (.Exp (op a (b : Rat)))
  | .Exp (.CReal a), .Exp (.CReal b) => .ok (.Exp (op a b))
  | _, _ => .fail (msg, none)

/-- Boolean-expression helper shared by the relational closures. -/
def boolExp (b : Bool) : Expression := if b then .CTrue else .CFalse

/-- Value part of the not function from interpreter.rs. -/
def notValue (v : EnvValue) : Res EnvValue :=
  match v with
  | .Exp .CTrue => .ok (.Exp .CFalse)
  | .Exp .CFalse => .ok (.Exp .CTrue)
  | _ => .fail ("'not' is only defined for booleans.", none)

/-- Value part of eval_unwrap_expression from interpreter.rs. -/
def unwrapValue (v : EnvValue) : Res EnvValue :=
  match v with
  | .Exp (.CJust e) => .ok (.Exp e)
  | .Exp (.COk e) => .ok (.Exp e)
  | _ => .fail ("Program panicked trying to unwrap.", none)

/-- Value part of eval_propagate_expression from interpreter.rs: the source
of the Propagate sentinel. -/
def propagateValue (v : EnvValue) : Res EnvValue :=
  match v with
  | .Exp (.CJust e) => .ok (.Exp e)
  | .Exp (.COk e) => .ok (.Exp e)
  | .Exp (.CErr e) => .fail ("Propagate", some e)
  | .Exp .CNothing => .fail ("Propagate", some (.CString "Couldn't unwrap Nothing"))
  | _ => .fail ("'propagate' is expects a Just or Ok.", none)

/-- Value part of eval_iserror_expression from interpreter.rs. -/
def isErrorValue (v : EnvValue) : Res EnvValue :=
  match v with
  | .Exp (.CErr _) => .ok (.Exp .CTrue)
  | _ => .ok (.Exp .CFalse)

/-- Value part of eval_isnothing_expression from interpreter.rs. -/
def isNothingValue (v : EnvValue) : Res EnvValue :=
  match v with
  | .Exp .CNothing => .ok (.Exp .CTrue)
  | _ => .ok (.Exp .CFalse)

/-- Value part of eval_just from interpreter.rs. -/
def justValue (v : EnvValue) : Res EnvValue :=
  match v with
  | .Exp e => .ok (.Exp (.CJust e))
  | _ => .fail ("Expression not recognized.", none)

/-- Value part of eval_ok from interpreter.rs. -/
def okValue (v : EnvValue) : Res EnvValue :=
  match v with
  | .Exp e => .ok (.Exp (.COk e))
  | _ => .fail ("Expression not recognized.", none)

/-- Value part of eval_err from interpreter.rs. -/
def errValue (v : EnvValue) : Res EnvValue :=
  match v with
  | .Exp e => .ok (.Exp (.CErr e))
  | _ => .fail ("Expression not recognized.", none)

/-- extract_error_value from interpreter.rs (its env parameter is unused in
the Rust code and dropped here).  The f64 Display rendering is modelled by
the Rat ToString instance; no claim settled here depends on it. -/
def extractErrorValue : Expression → Res String
  | .COk e => extractErrorValue e
  | .CErr e => extractErrorValue e
  | .CJust e => extractErrorValue e
  | .CTrue => .ok "True"
  | .CFalse => .ok "False"
  | .CInt v => .ok (toString v)
  | .CReal v => .ok (toString v)
  | .CString v => .ok v
  | .CNothing => .ok "Nothing"
  | _ => .fail ("Nothing to extract from.", none)

/-- Loop body of lookup from interpreter.rs: walk the parent-key chain; a
missing frame for the current key, or exhaustion of the chain (parent_key
None), hits an unwrap and crashes. -/
def lookupLoop : Nat → (Name × Int) → Name → Environment → Res EnvValue
  | 0, _, _, _ => .fuelOut
  | n+1, key, name, env =>
    match env.getFrame? key with
    | none => .crash
    | some frame =>
      match mapGet frame.variables name with
      | some v => .ok v
      | none =>
        match frame.parentKey with
        | some p => lookupLoop n p name env
        | none => .crash

/-- lookup from interpreter.rs. -/
def lookup (n : Nat) (name : Name) (env : Environment) : Res EnvValue :=
  lookupLoop n env.scopeKey name env

/-- The frames of the parent-key chain starting at key, in traversal order
(active frame first, root last); a dangling key crashes, a cyclic chain
exhausts the fuel. -/
def chainFrames : Nat → Environment → (Name × Int) → Res (List Frame)
  | 0, _, _ => .fuelOut
  | n+1, env, key =>
    match env.getFrame? key with
    | none => .crash
    | some f =>
      match f.parentKey with
      | some p => evBind (chainFrames n env p) (fun fs => .ok (f :: fs))
      | none => .ok [f]

/-- Inner loop of the function-copy phase of call from interpreter.rs:
insert every Function-valued binding of one frame into the accumulator. -/
def copyFuncsList : List (Name × EnvValue) → Environment → Environment
  | [], acc => acc
  | (nm, v) :: rest, acc =>
    match v with
    | .Func _ => copyFuncsList rest (acc.insertVariable nm v)
    | _ => copyFuncsList rest acc

/-- Chain walk of the function-copy phase of call from interpreter.rs:
starting from the caller's active key, copy Function bindings frame by
frame toward the root. -/
def copyChain : Nat → Environment → (Name × Int) → Environment → Res Environment
  | 0, _, _, _ => .fuelOut
  | n+1, env, key, acc =>
    match env.getFrame? key with
    | none => .crash
    | some frame =>
      match frame.parentKey with
      | some p => copyChain n env p (copyFuncsList frame.variables acc)
      | none => .ok (copyFuncsList frame.variables acc)

/-- constructors.iter().find of adtconstructor_eval from interpreter.rs. -/
def findConstructor : List ValueConstructor → Name → Option ValueConstructor
  | [], _ => none
  | vc :: rest, c => if vc.name = c then some vc else findConstructor rest c

mutual

/-- eval from interpreter.rs.  One unit of fuel is spent per recursive call,
so the whole mutual block is structural on the fuel argument.  Failures
produced while evaluating subterms short-circuit exactly as the Rust
question-mark operator does (evBind). -/
def evalExp : Nat → Expression → Environment → Res EnvValue
  | 0, _, _ => .fuelOut
  | n+1, e, env =>
    match e with
    | .Add l r =>
      evBind (evalExp n l env) (fun v1 => evBind (evalExp n r env) (fun v2 =>
        arithValues v1 v2 addInt (fun a b => a + b)
          "addition '(+)' is only defined for numbers (integers and real)."))
    | .Sub l r =>
      evBind (evalExp n l env) (fun v1 => evBind (evalExp n r env) (fun v2 =>
        arithValues v1 v2 subInt (fun a b => a - b)
          "subtraction '(-)' is only defined for numbers (integers and real)."))
    | .Mul l r =>
      evBind (evalExp n l env) (fun v1 => evBind (evalExp n r env) (fun v2 =>
        arithValues v1 v2 mulInt (fun a b => a * b)
          "multiplication '(*)' is only defined for numbers (integers and real)."))
    | .Div l r =>
      evBind (evalExp n l env) (fun v1 => evBind (evalExp n r env) (fun v2 =>
        arithValues v1 v2 divInt (fun a b => a / b)
          "division '(/)' is only defined for numbers (integers and real)."))
    | .And l r =>
      evBind (evalExp n l env) (fun v1 => evBind (evalExp n r env) (fun v2 =>
        boolValues v1 v2 (fun a b => boolExp (a && b))
          "'and' is only defined for booleans."))
    | .Or l r =>
      evBind (evalExp n l env) (fun v1 => evBind (evalExp n r env) (fun v2 =>
        boolValues v1 v2 (fun a b => boolExp (a || b))
          "'or' is only defined for booleans."))
    | .Not l => evBind (evalExp n l env) notValue
    | .EQ l r =>
      evBind (evalExp n l env) (fun v1 => evBind (evalExp n r env) (fun v2 =>
        relValues v1 v2 (fun a b => boolExp (a = b))
          "(==) is only defined for numbers (integers and real)."))
    | .GT l r =>
      evBind (evalExp n l env) (fun v1 => evBind (evalExp n r env) (fun v2 =>
        relValues v1 v2 (fun a b => boolExp (a > b))
          "(>) is only defined for numbers (integers and real)."))
    | .LT l r =>
      evBind (evalExp n l env) (fun v1 => evBind (evalExp n r env) (fun v2 =>
        relValues v1 v2 (fun a b => boolExp (a < b))
          "(<) is only defined for numbers (integers and real)."))
    | .GTE l r =>
      evBind (evalExp n l env) (fun v1 => evBind (evalExp n r env) (fun v2 =>
        relValues v1 v2 (fun a b => boolExp (a >= b))
          "(>=) is only defined for numbers (integers and real)."))
    | .LTE l r =>
      evBind (evalExp n l env) (fun v1 => evBind (evalExp n r env) (fun v2 =>
        relValues v1 v2 (fun a b => boolExp (a <= b))
          "(<=) is only defined for numbers (integers and real)."))
    | .Var name => lookup n name env
    | .COk e' => evBind (evalExp n e' env) okValue
    | .CErr e' => evBind (evalExp n e' env) errValue
    | .CJust e' => evBind (evalExp n e' env) justValue
    | .Unwrap e' => evBind (evalExp n e' env) unwrapValue
    | .Propagate e' => evBind (evalExp n e' env) propagateValue
    | .IsError e' => evBind (evalExp n e' env) isErrorValue
    | .IsNothing e' => evBind (evalExp n e' env) isNothingValue
    | .FuncCall name args => call n name args env
    | .ADTConstructor adtName ctorName args =>
      -- adtconstructor_eval from interpreter.rs, inlined at its dispatch site
      match env.getType adtName with
      | none => .fail ("Error: ADT " ++ adtName ++ " not found", none)
      | some ctors =>
        match findConstructor ctors ctorName with
        | none =>
          .fail ("Error: Constructor " ++ ctorName ++ " not found in ADT " ++
            adtName, none)
        | some vc =>
          if vc.types.length ≠ args.length then
            .fail ("Error: Constructor " ++ ctorName ++ " expects " ++
              toString vc.types.length ++ " arguments, but received " ++
              toString args.length, none)
          else
            evBind (adtArgsEval n args env)
              (fun es => .ok (.Exp (.ADTConstructor adtName ctorName es)))
    | e' => if isConstant e' then .ok (.Exp e') else .fail ("Not implemented yet.", none)

/-- Argument evaluation of adtconstructor_eval from interpreter.rs: evaluate
left to right, demanding plain expression values, first failure wins. -/
def adtArgsEval : Nat → List Expression → Environment → Res (List Expression)
  | 0, _, _ => .fuelOut
  | _+1, [], _ => .ok []
  | n+1, a :: rest, env =>
    evBind (evalExp n a env) (fun v =>
      match v with
      | .Exp e => evBind (adtArgsEval n rest env) (fun es => .ok (e :: es))
      | _ => .fail ("Error: Expected expression in ADT constructor arguments", none))

/-- call from interpreter.rs: resolve the callee in the active frame only,
copy every Function binding reachable along the caller's frame chain into a
fresh Environment, bind the zipped parameter/argument pairs (arguments
evaluated in the caller's environment), then run the body. -/
def call : Nat → Name → List Expression → Environment → Res EnvValue
  | 0, _, _, _ => .fuelOut
  | n+1, name, args, env =>
    match env.getFrame? env.scopeKey with
    | none => .crash
    | some f =>
      match mapGet f.variables name with
      | some (.Func func) =>
        evBind (copyChain n env env.scopeKey Environment.new) (fun newEnv =>
          evBind (match func.params with
                  | some ps => bindArgs n ps args env newEnv
                  | none => .ok newEnv) (fun newEnv2 =>
            match func.body with
            | none => .crash
            | some body =>
              evBind (execute n body newEnv2) (fun cf =>
                match cf with
                | .Return v => .ok v
                | .Continue _ => .fail ("Function did not return a value", none))))
      | _ => .fail ("Function " ++ name ++ " not found", none)

/-- Parameter-binding loop of call from interpreter.rs: the zip truncates to
the shorter list; each argument is evaluated in the caller's environment and
inserted under the parameter name, in declaration order. -/
def bindArgs : Nat → List (Name × Ty) → List Expression → Environment →
    Environment → Res Environment
  | 0, _, _, _, _ => .fuelOut
  | n+1, ps, args, callerEnv, acc =>
    match ps, args with
    | p :: ps', a :: args' =>
      evBind (evalExp n a callerEnv)
        (fun v => bindArgs n ps' args' callerEnv (acc.insertVariable p.1 v))
    | _, _ => .ok acc

/-- execute from interpreter.rs.  The Rust function computes a result for
the dispatched statement and passes it through the sentinel catch at the
bottom (resultCatch); however every question-mark early return and every
explicit return inside the arms bypasses that catch, which is mirrored here
by applying resultCatch only to the value each arm actually falls through
with. -/
def execute : Nat → Statement → Environment → Res ControlFlow
  | 0, _, _ => .fuelOut
  | n+1, stmt, env =>
    match stmt with
    | .Assignment name exp _ =>
      evBind (evalExp n exp env)
        (fun v => resultCatch n env (.ok (.Continue (env.insertVariable name v))))
    | .IfThenElse cond sThen sElse =>
      evBind (evalExp n cond env) (fun v =>
        match v with
        | .Exp .CTrue => resultCatch n env (branchExec n sThen env)
        | .Exp .CFalse =>
          match sElse with
          | some sE => resultCatch n env (branchExec n sE env)
          | none => resultCatch n env (.ok (.Continue env))
        | _ => resultCatch n env (.fail ("Condition must evaluate to a boolean", none)))
    | .Block stmts => resultCatch n env (executeBlock n stmts env)
    | .While cond body =>
      evBind (evalExp n cond env) (fun v => whileLoop n cond body env v)
    | .AssertTrue cond error =>
      evBind (evalExp n cond env) (fun v =>
        resultCatch n env (match v with
          | .Exp .CTrue => .ok (.Continue env)
          | .Exp .CFalse => .fail (error, none)
          | _ => .fail ("expecting a boolean value.", none)))
    | .AssertFalse cond error =>
      evBind (evalExp n cond env) (fun v =>
        resultCatch n env (match v with
          | .Exp .CFalse => .ok (.Continue env)
          | .Exp .CTrue => .fail (error, none)
          | _ => .fail ("expecting a boolean value.", none)))
    | .AssertEQ v1 v2 error =>
      evBind (evalExp n v1 env) (fun w1 => evBind (evalExp n v2 env) (fun w2 =>
        evBind (relValues w1 w2 (fun a b => boolExp (a = b))
            "(==) is only defined for numbers (integers and real).") (fun v =>
          match v with
          | .Exp .CTrue =>
            resultCatch n env (match execute n (.AssertTrue .CTrue error) env with
              | .ok (.Continue e2) => .ok (.Continue e2)
              | .fail e' => .fail e'
              | .ok (.Return _) => .fail ("arguments are not of the same type", none)
              | .crash => .crash
              | .fuelOut => .fuelOut)
          | .Exp .CFalse =>
            resultCatch n env (match execute n (.AssertTrue .CFalse error) env with
              | .ok (.Continue e2) => .ok (.Continue e2)
              | .fail e' => .fail e'
              | .ok (.Return _) => .fail ("arguments are not of the same type", none)
              | .crash => .crash
              | .fuelOut => .fuelOut)
          | _ => .fail ("", none))))
    | .AssertNEQ v1 v2 error =>
      evBind (evalExp n v1 env) (fun w1 => evBind (evalExp n v2 env) (fun w2 =>
        evBind (relValues w1 w2 (fun a b => boolExp (a = b))
            "(==) is only defined for numbers (integers and real).") (fun v =>
          match v with
          | .Exp .CTrue =>
            resultCatch n env (match execute n (.AssertFalse .CTrue error) env with
              | .ok (.Continue e2) => .ok (.Continue e2)
              | .fail e' => .fail e'
              | .ok (.Return _) => .fail ("arguments are not of the same type", none)
              | .crash => .crash
              | .fuelOut => .fuelOut)
          | .Exp .CFalse =>
            resultCatch n env (match execute n (.AssertFalse .CFalse error) env with
              | .ok (.Continue e2) => .ok (.Continue e2)
              | .fail e' => .fail e'
              | .ok (.Return _) => .fail ("arguments are not of the same type", none)
              | .crash => .crash
              | .fuelOut => .fuelOut)
          | _ => .fail ("", none))))
    | .AssertFails error => resultCatch n env (.fail (error, none))
    | .TestDef test =>
      resultCatch n env (match test.body with
        | none => .crash
        | some b =>
          .ok (.Continue (env.insertTest test.name
            (.mk test.name test.kind test.params
              (some (.Sequence b (.Return .CVoid)))))))
    | .ModTestDef name stmt' =>
      -- the nested TestEnvironment's env is overwritten with a clone of the
      -- enclosing environment before the body executes
      match execute n stmt' env with
      | .ok (.Continue e2) =>
        resultCatch n env
          (.ok (.Continue (env.insertVariable name (.TestEnv (.mk "__test__" e2)))))
      | .ok (.Return v) => .ok (.Return v)
      | .fail e' => .fail e'
      | .crash => .crash
      | .fuelOut => .fuelOut
    | .Sequence s1 s2 =>
      evBind (execute n s1 env) (fun cf =>
        match cf with
        | .Continue e1 => resultCatch n env (execute n s2 e1)
        | .Return v => .ok (.Return v))
    | .FuncDef func =>
      resultCatch n env (.ok (.Continue (env.insertVariable func.name (.Func func))))
    | .Return exp =>
      evBind (evalExp n exp env) (fun v => resultCatch n env (.ok (.Return v)))
    | .ADTDeclaration name ctors =>
      resultCatch n env (.ok (.Continue (env.insertType name ctors)))
    | .Match exp cases =>
      evBind (evalExp n exp env) (fun v => matchCases n v cases env)
    | _ => resultCatch n env (.fail ("not implemented yet", none))

/-- execute_block from interpreter.rs. -/
def executeBlock : Nat → List Statement → Environment → Res ControlFlow
  | 0, _, _ => .fuelOut
  | _+1, [], env => .ok (.Continue env)
  | n+1, s :: rest, env =>
    evBind (execute n s env) (fun cf =>
      match cf with
      | .Continue e2 => executeBlock n rest e2
      | .Return v => .ok (.Return v))

/-- Loop of the While arm of execute from interpreter.rs; every exit of the
Rust loop is an explicit return or a question mark, so nothing of it passes
through the sentinel catch.  A non-boolean condition hits unreachable. -/
def whileLoop : Nat → Expression → Statement → Environment → EnvValue →
    Res ControlFlow
  | 0, _, _, _, _ => .fuelOut
  | n+1, cond, body, env, v =>
    match v with
    | .Exp .CTrue =>
      evBind (execute n body env) (fun cf =>
        match cf with
        | .Continue e2 =>
          evBind (evalExp n cond e2) (fun v2 => whileLoop n cond body e2 v2)
        | .Return rv => .ok (.Return rv))
    | .Exp .CFalse => .ok (.Continue env)
    | _ => .crash

/-- Shared branch dispatch of the IfThenElse and Match arms of execute from
interpreter.rs: a Block body goes straight to execute_block, anything else
through execute. -/
def branchExec : Nat → Statement → Environment → Res ControlFlow
  | 0, _, _ => .fuelOut
  | n+1, s, env =>
    match s with
    | .Block stmts => executeBlock n stmts env
    | s' => execute n s' env

/-- Case loop of the Match arm of execute from interpreter.rs: patterns are
tried in source order; the first match's body is returned directly
(bypassing the sentinel catch, like the Rust early return), a pattern error
short-circuits, and falling off the end fails through the catch. -/
def matchCases : Nat → EnvValue → List (Expression × Statement) → Environment →
    Res ControlFlow
  | 0, _, _, _ => .fuelOut
  | n+1, _, [], env => resultCatch n env (.fail ("No matching pattern found", none))
  | n+1, v, (p, s) :: rest, env =>
    evBind (matchesPattern n v p env) (fun b =>
      if b then branchExec n s env else matchCases n v rest env)

/-- matches_pattern from interpreter.rs. -/
def matchesPattern : Nat → EnvValue → Expression → Environment → Res Bool
  | 0, _, _, _ => .fuelOut
  | n+1, v, p, env =>
    match v, p with
    | .Exp (.ADTConstructor a1 c1 args1), .ADTConstructor a2 c2 args2 =>
      if a1 = a2 ∧ c1 = c2 then matchesArgs n (args1.zip args2) env else .ok false
    | .Exp e1, p' =>
      if isConstant p' then .ok (expEqConst e1 p')
      else .fail ("Pattern not supported", none)
    | _, _ => .fail ("Pattern not supported", none)

/-- Positional-argument loop of matches_pattern from interpreter.rs: each
pattern argument is evaluated against the current environment and
recursively matched; the zip truncates to the shorter side. -/
def matchesArgs : Nat → List (Expression × Expression) → Environment → Res Bool
  | 0, _, _ => .fuelOut
  | _+1, [], _ => .ok true
  | n+1, (a1, a2) :: rest, env =>
    evBind (evalExp n a1 env) (fun av =>
      evBind (matchesPattern n av a2 env) (fun b =>
        if b then matchesArgs n rest env else .ok false))

/-- Sentinel catch at the bottom of execute from interpreter.rs: a failure
whose message is not exactly "Propagate" is forwarded with its payload
dropped; the sentinel hands its carried expression to propagate_error, and a
sentinel with no carried expression hits opt.unwrap() and crashes. -/
def resultCatch : Nat → Environment → Res ControlFlow → Res ControlFlow
  | 0, _, _ => .fuelOut
  | n+1, env, r =>
    match r with
    | .ok v => .ok v
    | .fail (s, opt) =>
      if s ≠ "Propagate" then .fail (s, none)
      else
        match opt with
        | some e => propagateError n e env
        | none => .crash
    | .crash => .crash
    | .fuelOut => .fuelOut

/-- propagate_error from interpreter.rs: at recursion depth zero the carried
expression is re-evaluated and the program terminates with a formatted
failure; at positive depth the carried expression is wrapped in CErr and
yielded as a Return outcome. -/
def propagateError : Nat → Expression → Environment → Res ControlFlow
  | 0, _, _ => .fuelOut
  | n+1, exp, env =>
    if env.scopeKey.2 = 0 then
      match evalExp n exp env with
      | .ok (.Exp newValue) =>
        (match extractErrorValue newValue with
         | .ok s => .fail ("Program terminated with errors: " ++ s, none)
         | _ => .fail ("Program terminated with errors", none))
      | .ok _ => .fail ("Program panicked and trying to terminate with errors", none)
      | .fail _ => .fail ("Program panicked and trying to terminate with errors", none)
      | .crash => .crash
      | .fuelOut => .fuelOut
    else .ok (.Return (.Exp (.CErr exp)))

end

/-- Outcome type of the public run entry point from interpreter.rs (the
error payload is projected away). -/
inductive RunRes : Type where
  | ok (cf : ControlFlow)
  | err (s : String)
  | crash
  | fuelOut

/-- run from interpreter.rs. -/
def run (n : Nat) (stmt : Statement) (env : Environment) : RunRes :=
  match execute n stmt env with
  | .ok cf => .ok cf
  | .fail (s, _) => .err s
  | .crash => .crash
  | .fuelOut => .fuelOut

/-- Shape test used to state the IsError contract: exactly the values that
wrap a CErr expression. -/
def isErrShaped : EnvValue → Bool
  | .Exp (.CErr _) => true
  | _ => false

/-- Shape test used to state the IsNothing contract: exactly the CNothing
value. -/
def isNothingShaped : EnvValue → Bool
  | .Exp .CNothing => true
  | _ => false

/-- C1: the specification claims that a variable reference whose name is
bound nowhere along the parent-key chain yields an ordinary lookup failure
naming the variable.  The code instead reaches the root frame (parent_key
None) and calls unwrap on it, i.e. it panics.  This theorem evaluates the
code at the failing situation: whenever the chain walk reaches a frame that
neither binds the name nor has a parent, evaluating Var crashes. -/
theorem c1_unbound_variable_crashes (n : Nat) (name : Name) (env : Environment)
    (frame : Frame)
    (h1 : env.getFrame? env.scopeKey = some frame)
    (h2 : mapGet frame.variables name = none)
    (h3 : frame.parentKey = none) :
    evalExp (n + 2) (.Var name) env = .crash := by
  simp [evalExp, lookup, lookupLoop, h1, h2, h3]

/-- Witness for c1_unbound_variable_crashes: in a fresh environment the
variable x is unbound and evaluating it panics. -/
theorem c1_unbound_variable_crashes_witness :
    evalExp 2 (.Var "x") Environment.new = .crash :=
  c1_unbound_variable_crashes 0 "x" Environment.new (Frame.new none none) rfl rfl rfl

/-- C4: if the scrutinee expression evaluates to a value, IsError returns
the boolean constant that is true exactly for Err-wrapped values and
IsNothing the one that is true exactly for Nothing; every other value
(Ok, Just, plain constants, functions, test environments) yields false, and
neither predicate introduces a failure of its own. -/
theorem c4_iserror_isnothing (n : Nat) (e : Expression) (env : Environment)
    (v : EnvValue) (h : evalExp n e env = .ok v) :
    evalExp (n + 1) (.IsError e) env = .ok (.Exp (boolExp (isErrShaped v)))
  ∧ evalExp (n + 1) (.IsNothing e) env = .ok (.Exp (boolExp (isNothingShaped v))) := by
  constructor
  · simp only [evalExp, h, evBind]
    cases v with
    | Exp e' => cases e' <;> rfl
    | Func f => rfl
    | TestEnv t => rfl
  · simp only [evalExp, h, evBind]
    cases v with
    | Exp e' => cases e' <;> rfl
    | Func f => rfl
    | TestEnv t => rfl

/-- Witness for c4_iserror_isnothing at the value Err(2). -/
theorem c4_iserror_isnothing_witness :
    evalExp 3 (.IsError (.CErr (.CInt 2))) Environment.new = .ok (.Exp .CTrue)
  ∧ evalExp 3 (.IsNothing (.CErr (.CInt 2))) Environment.new = .ok (.Exp .CFalse) :=
  c4_iserror_isnothing 2 (.CErr (.CInt 2)) Environment.new
    (.Exp (.CErr (.CInt 2))) rfl

/-- C5: integer division computes the truncate-toward-zero quotient with the
result saturated at the i32 bounds rather than wrapping or failing, and
division by zero is not special-cased: it yields the saturated cast of the
floating-point infinity (i32Max for a positive numerator, i32Min for a
negative one, and 0 for the NaN produced by zero over zero).  For i32
operands the f64 round trip of the Rust code is captured exactly by divInt:
the correctly rounded f64 quotient of two i32 values cannot round across an
integer boundary (that would need a numerator of magnitude at least 2^53),
so truncating it gives Int.tdiv, and the saturating cast is i32Sat. -/
theorem c5_div_semantics (n : Nat) (a b : Int) (env : Environment) :
    (b ≠ 0 → evalExp (n + 2) (.Div (.CInt a) (.CInt b)) env
        = .ok (.Exp (.CInt (i32Sat (Int.tdiv a b)))))
  ∧ (0 < a → evalExp (n + 2) (.Div (.CInt a) (.CInt 0)) env
        = .ok (.Exp (.CInt i32Max)))
  ∧ (a < 0 → evalExp (n + 2) (.Div (.CInt a) (.CInt 0)) env
        = .ok (.Exp (.CInt i32Min)))
  ∧ (evalExp (n + 2) (.Div (.CInt 0) (.CInt 0)) env
        = .ok (.Exp (.CInt 0))) := by
  have hu : ∀ a' b' : Int, evalExp (n + 2) (.Div (.CInt a') (.CInt b')) env
      = .ok (.Exp (.CInt (divInt a' b'))) := fun a' b' => rfl
  refine ⟨fun hb => ?_, fun ha => ?_, fun ha => ?_, ?_⟩
  · rw [hu]
    simp [divInt, hb]
  · rw [hu]
    simp [divInt, ha]
  · have h1 : ¬ a > 0 := by omega
    rw [hu]
    simp [divInt, h1, ha]
  · rw [hu]
    rfl

/-- Witness for c5_div_semantics: 21 over 3 is 7, truncation of -7 over 2 is
-3, 5 over 0 saturates to i32Max, -5 over 0 saturates to i32Min. -/
theorem c5_div_semantics_witness :
    evalExp 5 (.Div (.CInt 21) (.CInt 3)) Environment.new = .ok (.Exp (.CInt 7))
  ∧ evalExp 5 (.Div (.CInt (-7)) (.CInt 2)) Environment.new = .ok (.Exp (.CInt (-3)))
  ∧ evalExp 5 (.Div (.CInt 5) (.CInt 0)) Environment.new
      = .ok (.Exp (.CInt 2147483647))
  ∧ evalExp 5 (.Div (.CInt (-5)) (.CInt 0)) Environment.new
      = .ok (.Exp (.CInt (-2147483648))) :=
  ⟨(c5_div_semantics 3 21 3 Environment.new).1 (by decide),
   (c5_div_semantics 3 (-7) 2 Environment.new).1 (by decide),
   (c5_div_semantics 3 5 0 Environment.new).2.1 (by decide),
   (c5_div_semantics 3 (-5) 0 Environment.new).2.2.1 (by decide)⟩

/-- C7: for a declared ADT and a declared constructor of it, an application
whose argument list length differs from the declared field count fails with
the descriptive count error, for every argument list of that length -
including argument expressions that could not themselves be evaluated -
because the count check precedes argument evaluation. -/
theorem c7_adt_arity_check (n : Nat) (adt ctor : Name) (args : List Expression)
    (env : Environment) (ctors : List ValueConstructor) (vc : ValueConstructor)
    (h1 : env.getType adt = some ctors)
    (h2 : findConstructor ctors ctor = some vc)
    (h3 : vc.types.length ≠ args.length) :
    evalExp (n + 1) (.ADTConstructor adt ctor args) env =
      .fail ("Error: Constructor " ++ ctor ++ " expects " ++
        toString vc.types.length ++ " arguments, but received " ++
        toString args.length, none) := by
  simp [evalExp, h1, h2, h3]

/-- Witness for c7_adt_arity_check: Circle declared with one field, applied
to two arguments that are themselves unevaluable unbound variables. -/
theorem c7_adt_arity_check_witness :
    evalExp 1 (.ADTConstructor "Shape" "Circle" [.Var "zzz", .Var "www"])
      (Environment.new.insertType "Shape" [.mk "Circle" [.TReal]]) =
    .fail ("Error: Constructor Circle expects 1 arguments, but received 2", none) :=
  c7_adt_arity_check 0 "Shape" "Circle" [.Var "zzz", .Var "www"]
    (Environment.new.insertType "Shape" [.mk "Circle" [.TReal]])
    [.mk "Circle" [.TReal]] (.mk "Circle" [.TReal]) rfl rfl (by decide)

/-- C10: the sentinel catch recognises the propagate sentinel purely by the
failure message being the string Propagate.  AssertFails with that literal
message produces a failure carrying no expression, so the interception step
unwraps None and panics, instead of reporting the assertion failure the way
it does for every other message. -/
theorem c10_assertfails_propagate_crash (n : Nat) (env : Environment)
    (m : String) (hm : m ≠ "Propagate") :
    execute (n + 2) (.AssertFails "Propagate") env = .crash
  ∧ execute (n + 2) (.AssertFails m) env = .fail (m, none) := by
  constructor
  · simp [execute, resultCatch]
  · simp [execute, resultCatch, hm]

/-- Witness for c10_assertfails_propagate_crash with the ordinary message
boom. -/
theorem c10_assertfails_propagate_crash_witness :
    execute 2 (.AssertFails "Propagate") Environment.new = .crash
  ∧ execute 2 (.AssertFails "boom") Environment.new = .fail ("boom", none) :=
  c10_assertfails_propagate_crash 0 Environment.new "boom" (by decide)

/-- C2 counterexample: the claim asserts that EVERY statement raising the
propagate sentinel, executed at recursion depth zero, ends in the formatted
termination failure rather than a forwarded sentinel.  But the sentinel
raised by evaluating the statement's own expression leaves execute through
the question-mark early return, bypassing the catch: an assignment from
Propagate(Err(7)) at depth zero returns the raw sentinel failure. -/
theorem c2_claim_counterexample :
    execute 5 (.Assignment "x" (.Propagate (.CErr (.CInt 7))) none) Environment.new
      = .fail ("Propagate", some (.CInt 7))
  ∧ Environment.new.recursion = 0 :=
  ⟨rfl, rfl⟩

/-- Unfolding equation for the Sequence arm of execute: the first statement
runs behind a question mark, the second statement's result passes through
the sentinel catch. -/
theorem execute_sequence_unfold (n : Nat) (s1 s2 : Statement) (env : Environment) :
    execute (n + 1) (.Sequence s1 s2) env =
      evBind (execute n s1 env) (fun cf =>
        match cf with
        | .Continue e1 => resultCatch n env (execute n s2 e1)
        | .Return v => .ok (.Return v)) := rfl

/-- Unfolding equation for the failure case of the sentinel catch. -/
theorem resultCatch_fail_unfold (n : Nat) (env : Environment) (s : String)
    (opt : Option Expression) :
    resultCatch (n + 1) env (.fail (s, opt)) =
      if s ≠ "Propagate" then .fail (s, none)
      else match opt with
           | some e => propagateError n e env
           | none => .crash := rfl

/-- Unfolding equation for propagate_error at positive fuel. -/
theorem propagateError_unfold (n : Nat) (exp : Expression) (env : Environment) :
    propagateError (n + 1) exp env =
      if env.scopeKey.2 = 0 then
        match evalExp n exp env with
        | .ok (.Exp newValue) =>
          (match extractErrorValue newValue with
           | .ok s => .fail ("Program terminated with errors: " ++ s, none)
           | _ => .fail ("Program terminated with errors", none))
        | .ok _ => .fail ("Program panicked and trying to terminate with errors", none)
        | .fail _ => .fail ("Program panicked and trying to terminate with errors", none)
        | .crash => .crash
        | .fuelOut => .fuelOut
      else .ok (.Return (.Exp (.CErr exp))) := rfl

/-- C2 amended: the interception step applies when the sentinel arrives as
the dispatched arm's value (here witnessed through the second component of
a Sequence).  At recursion depth zero the handler re-evaluates the carried
expression, and when a value can be extracted from it the program fails
with the formatted termination message; the handler never produces a Return
outcome at depth zero; and a non-sentinel failure is forwarded with its
message unchanged (payload dropped). -/
theorem c2_sentinel_interception_amended (n n' : Nat) (env env1 : Environment)
    (s1 s2 : Statement) (e v : Expression) (msg failMsg : String)
    (opt : Option Expression)
    (hrec : env.recursion = 0)
    (h1 : execute (n + 1) s1 env = .ok (.Continue env1)) :
    (execute (n + 1) s2 env1 = .fail ("Propagate", some e) →
       execute (n + 2) (.Sequence s1 s2) env = propagateError n e env)
  ∧ (evalExp n' e env = .ok (.Exp v) → extractErrorValue v = .ok msg →
       propagateError (n' + 1) e env =
         .fail ("Program terminated with errors: " ++ msg, none))
  ∧ (∀ cf, propagateError (n' + 1) e env ≠ .ok cf)
  ∧ (failMsg ≠ "Propagate" → execute (n + 1) s2 env1 = .fail (failMsg, opt) →
       execute (n + 2) (.Sequence s1 s2) env = .fail (failMsg, none))
  := by
  have hkey : env.scopeKey.2 = 0 := hrec
  refine ⟨?_, ?_, ?_, ?_⟩
  · intro h2
    rw [execute_sequence_unfold, h1]
    simp only [evBind]
    rw [h2, resultCatch_fail_unfold]
    rfl
  · intro he hx
    rw [propagateError_unfold, if_pos hkey, he]
    simp [hx]
  · intro cf
    rw [propagateError_unfold, if_pos hkey]
    cases hev : evalExp n' e env with
    | ok w =>
      cases w with
      | Exp w' => cases hx : extractErrorValue w' <;> simp [hx]
      | Func f => simp
      | TestEnv t => simp
    | fail e' => simp
    | crash => simp
    | fuelOut => simp
  · intro hne h2
    rw [execute_sequence_unfold, h1]
    simp only [evBind]
    rw [h2, resultCatch_fail_unfold, if_pos hne]

/-- Concrete first statement used by the C2 witness. -/
def c2S1 : Statement := .Assignment "a" (.CInt 1) none

/-- Concrete sentinel-raising second statement used by the C2 witness. -/
def c2S2 : Statement := .Return (.Propagate (.CErr (.CInt 7)))

/-- Environment produced by executing c2S1 in a fresh environment. -/
def c2Env1 : Environment :=
  .mk Function.new 0
    [(("__main__", 0), .mk none none [("a", .Exp (.CInt 1))] [])] []

/-- Witness for c2_sentinel_interception_amended: a depth-zero Sequence whose
second statement propagates Err(7) terminates with the formatted message. -/
theorem c2_sentinel_interception_amended_witness :
    execute 6 (.Sequence c2S1 c2S2) Environment.new
      = .fail ("Program terminated with errors: 7", none) := by
  have h := c2_sentinel_interception_amended 4 3 Environment.new c2Env1
    c2S1 c2S2 (.CInt 7) (.CInt 7) "7" "other" none rfl rfl
  exact (h.1 rfl).trans (h.2.1 rfl rfl)

/-- Projection used by the C3 counterexample: from the outcome of a program,
extract the bindings of x and y inside the test environment bound to m. -/
def c3Probe (r : Res ControlFlow) : Option (Option EnvValue × Option EnvValue) :=
  match r with
  | .ok (.Continue envF) =>
    match envF.searchFrameOpt "m" with
    | some (.TestEnv (.mk _ menv)) =>
      some (menv.searchFrameOpt "x", menv.searchFrameOpt "y")
    | _ => none
  | _ => none

/-- C3 counterexample: the claim asserts that a ModTestDef body runs against
a fresh nested Environment containing none of the enclosing bindings.  In
the code the nested environment is overwritten with a clone of the enclosing
one before the body runs: after binding x outside the module, the module
body successfully reads x (binding y to its value), and the stored
TestEnvironment still contains the enclosing binding x. -/
theorem c3_claim_counterexample :
    c3Probe (execute 6 (.Sequence (.Assignment "x" (.CInt 1) none)
        (.ModTestDef "m" (.Assignment "y" (.Var "x") none))) Environment.new)
      = some (some (.Exp (.CInt 1)), some (.Exp (.CInt 1))) := rfl

/-- C3 amended: the ModTestDef body executes against a clone of the
enclosing environment (so enclosing bindings are visible to it); on normal
completion the resulting environment, wrapped in a TestEnvironment named
__test__, is bound to the module name in the outer environment; a Return
from the body short-circuits outward as the Return outcome. -/
theorem c3_modtestdef_amended (n : Nat) (name : Name) (stmt : Statement)
    (env e2 : Environment) (v : EnvValue) :
    (execute (n + 1) stmt env = .ok (.Continue e2) →
       execute (n + 2) (.ModTestDef name stmt) env =
         .ok (.Continue (env.insertVariable name (.TestEnv (.mk "__test__" e2)))))
  ∧ (execute (n + 1) stmt env = .ok (.Return v) →
       execute (n + 2) (.ModTestDef name stmt) env = .ok (.Return v)) := by
  have hun : execute (n + 2) (.ModTestDef name stmt) env =
      (match execute (n + 1) stmt env with
       | .ok (.Continue e2') =>
         resultCatch (n + 1) env
           (.ok (.Continue (env.insertVariable name (.TestEnv (.mk "__test__" e2')))))
       | .ok (.Return v') => .ok (.Return v')
       | .fail e' => .fail e'
       | .crash => .crash
       | .fuelOut => .fuelOut) := rfl
  constructor
  · intro h
    rw [hun, h]
    rfl
  · intro h
    rw [hun, h]

/-- Environment produced by executing the C3 witness module body in a fresh
environment. -/
def c3E2 : Environment :=
  .mk Function.new 0
    [(("__main__", 0), .mk none none [("y", .Exp (.CInt 2))] [])] []

/-- Witness for c3_modtestdef_amended: a module body that assigns y is bound
under m as a TestEnvironment wrapping the post-body environment. -/
theorem c3_modtestdef_amended_witness :
    execute 4 (.ModTestDef "m" (.Assignment "y" (.CInt 2) none)) Environment.new
      = .ok (.Continue (Environment.new.insertVariable "m"
          (.TestEnv (.mk "__test__" c3E2)))) :=
  (c3_modtestdef_amended 2 "m" (.Assignment "y" (.CInt 2) none)
    Environment.new c3E2 (.Exp .CVoid)).1 rfl

/-- C6 counterexample: the claim (and the spec) quote the no-match failure
message as lowercase no matching pattern found; the code's message is
capitalised.  A Match with no cases fails with the capitalised message. -/
theorem c6_claim_counterexample :
    execute 3 (.Match (.CInt 1) []) Environment.new
      = .fail ("No matching pattern found", none)
  ∧ ("No matching pattern found" : String) ≠ "no matching pattern found" :=
  ⟨rfl, by decide⟩

/-- C6 amended: the Match statement evaluates its scrutinee once and hands
the resulting value to the case loop; the loop tries the candidate pairs in
source order, executing the body of the first matching pattern (later
candidates are never consulted) and skipping to the rest on a non-match; if
the candidates are exhausted, execution fails with the capitalised message
No matching pattern found.  (A pattern the matcher does not support makes
the loop fail with Pattern not supported instead; this is outside the
no-match wording of the claim.) -/
theorem c6_match_semantics_amended (n : Nat) (e : Expression)
    (cases' : List (Expression × Statement)) (env : Environment) (v : EnvValue)
    (p : Expression) (s : Statement) (rest : List (Expression × Statement)) :
    (evalExp n e env = .ok v →
       execute (n + 1) (.Match e cases') env = matchCases n v cases' env)
  ∧ (matchesPattern n v p env = .ok true →
       matchCases (n + 1) v ((p, s) :: rest) env = branchExec n s env)
  ∧ (matchesPattern n v p env = .ok false →
       matchCases (n + 1) v ((p, s) :: rest) env = matchCases n v rest env)
  ∧ (matchCases (n + 2) v [] env = .fail ("No matching pattern found", none)) := by
  have hm : execute (n + 1) (.Match e cases') env =
      evBind (evalExp n e env) (fun w => matchCases n w cases' env) := rfl
  have hc : matchCases (n + 1) v ((p, s) :: rest) env =
      evBind (matchesPattern n v p env) (fun b =>
        if b then branchExec n s env else matchCases n v rest env) := rfl
  refine ⟨?_, ?_, ?_, ?_⟩
  · intro h
    rw [hm, h]
    rfl
  · intro h
    rw [hc, h]
    rfl
  · intro h
    rw [hc, h]
    rfl
  · rfl

/-- Witness for c6_match_semantics_amended: scrutinee 1 against the single
pattern 1 hands off to the case loop, and the matching first case executes
its body. -/
theorem c6_match_semantics_amended_witness :
    execute 3 (.Match (.CInt 1) [(.CInt 1, .Return (.CString "one"))])
        Environment.new
      = matchCases 2 (.Exp (.CInt 1)) [(.CInt 1, .Return (.CString "one"))]
          Environment.new
  ∧ matchCases 3 (.Exp (.CInt 1)) [(.CInt 1, .Return (.CString "one"))]
        Environment.new
      = branchExec 2 (.Return (.CString "one")) Environment.new :=
  ⟨(c6_match_semantics_amended 2 (.CInt 1) [(.CInt 1, .Return (.CString "one"))]
      Environment.new (.Exp (.CInt 1)) (.CInt 1) (.Return (.CString "one")) []).1 rfl,
   (c6_match_semantics_amended 2 (.CInt 1) [(.CInt 1, .Return (.CString "one"))]
      Environment.new (.Exp (.CInt 1)) (.CInt 1) (.Return (.CString "one")) []).2.1 rfl⟩

/-- Congruence of evBind in its continuation. -/
theorem evBind_congr {α β : Type} (r : Res α) (k1 k2 : α → Res β)
    (h : ∀ a, k1 a = k2 a) : evBind r k1 = evBind r k2 := by
  cases r with
  | ok a => exact h a
  | fail e => rfl
  | crash => rfl
  | fuelOut => rfl

/-- Specification helper for C8: evaluate a list of expressions left to
right in a fixed environment, with the same fuel discipline as the
parameter-binding loop. -/
def evalArgsSpec : Nat → List Expression → Environment → Res (List EnvValue)
  | 0, _, _ => .fuelOut
  | _+1, [], _ => .ok []
  | n+1, a :: rest, env =>
    evBind (evalExp n a env) (fun v =>
      evBind (evalArgsSpec n rest env) (fun vs => .ok (v :: vs)))

/-- Specification helper for C8: bind a list of names to a list of values in
order (pairing truncated to the shorter list). -/
def insertAll : List Name → List EnvValue → Environment → Environment
  | nm :: nms, v :: vs, acc => insertAll nms vs (acc.insertVariable nm v)
  | _, _, acc => acc

/-- The parameter-binding loop ignores arguments beyond the parameter
count: they are never evaluated. -/
theorem bindArgs_take_args (n : Nat) (ps : List (Name × Ty))
    (args : List Expression) (env acc : Environment) :
    bindArgs n ps args env acc = bindArgs n ps (args.take ps.length) env acc := by
  induction n generalizing ps args acc with
  | zero => rfl
  | succ n ih =>
    cases ps with
    | nil => cases args <;> rfl
    | cons p ps' =>
      cases args with
      | nil => rfl
      | cons a args' =>
        have h1 : bindArgs (n + 1) (p :: ps') (a :: args') env acc =
            evBind (evalExp n a env)
              (fun v => bindArgs n ps' args' env (acc.insertVariable p.1 v)) := rfl
        have h2 : bindArgs (n + 1) (p :: ps')
              ((a :: args').take (p :: ps').length) env acc =
            evBind (evalExp n a env)
              (fun v => bindArgs n ps' (args'.take ps'.length) env
                (acc.insertVariable p.1 v)) := rfl
        rw [h1, h2]
        exact evBind_congr _ _ _ (fun v => ih ps' args' (acc.insertVariable p.1 v))

/-- The parameter-binding loop ignores parameters beyond the argument
count: they are left unbound without any failure. -/
theorem bindArgs_take_params (n : Nat) (ps : List (Name × Ty))
    (args : List Expression) (env acc : Environment) :
    bindArgs n ps args env acc = bindArgs n (ps.take args.length) args env acc := by
  induction n generalizing ps args acc with
  | zero => rfl
  | succ n ih =>
    cases ps with
    | nil => cases args <;> rfl
    | cons p ps' =>
      cases args with
      | nil => rfl
      | cons a args' =>
        have h1 : bindArgs (n + 1) (p :: ps') (a :: args') env acc =
            evBind (evalExp n a env)
              (fun v => bindArgs n ps' args' env (acc.insertVariable p.1 v)) := rfl
        have h2 : bindArgs (n + 1) ((p :: ps').take (a :: args').length)
              (a :: args') env acc =
            evBind (evalExp n a env)
              (fun v => bindArgs n (ps'.take args'.length) args' env
                (acc.insertVariable p.1 v)) := rfl
        rw [h1, h2]
        exact evBind_congr _ _ _ (fun v => ih ps' args' (acc.insertVariable p.1 v))

/-- When every paired argument evaluates to a value, the binding loop
succeeds and produces exactly the in-order insertion of those values under
the corresponding parameter names. -/
theorem bindArgs_spec (n : Nat) (ps : List (Name × Ty)) (args : List Expression)
    (env acc : Environment) (vs : List EnvValue)
    (h : evalArgsSpec n ((ps.zip args).map Prod.snd) env = .ok vs) :
    bindArgs n ps args env acc =
      .ok (insertAll ((ps.zip args).map (fun pa => pa.1.1)) vs acc) := by
  induction n generalizing ps args acc vs with
  | zero => exact Res.noConfusion h
  | succ n ih =>
    cases ps with
    | nil =>
      cases args with
      | nil =>
        injection h with h'
        subst h'
        rfl
      | cons a args' =>
        injection h with h'
        subst h'
        rfl
    | cons p ps' =>
      cases args with
      | nil =>
        injection h with h'
        subst h'
        rfl
      | cons a args' =>
        have hu : evalArgsSpec (n + 1) (((p :: ps').zip (a :: args')).map Prod.snd) env =
            evBind (evalExp n a env) (fun w =>
              evBind (evalArgsSpec n ((ps'.zip args').map Prod.snd) env)
                (fun ws => .ok (w :: ws))) := rfl
        rw [hu] at h
        cases hev : evalExp n a env with
        | ok w =>
          rw [hev] at h
          simp only [evBind] at h
          cases hrest : evalArgsSpec n ((ps'.zip args').map Prod.snd) env with
          | ok ws =>
            rw [hrest] at h
            simp only [evBind] at h
            injection h with h'
            subst h'
            have hb : bindArgs (n + 1) (p :: ps') (a :: args') env acc =
                evBind (evalExp n a env)
                  (fun v => bindArgs n ps' args' env (acc.insertVariable p.1 v)) := rfl
            rw [hb, hev]
            simp only [evBind]
            rw [ih ps' args' (acc.insertVariable p.1 w) ws hrest]
            rfl
          | fail e' =>
            rw [hrest] at h
            simp only [evBind] at h
            exact Res.noConfusion h
          | crash =>
            rw [hrest] at h
            simp only [evBind] at h
            exact Res.noConfusion h
          | fuelOut =>
            rw [hrest] at h
            simp only [evBind] at h
            exact Res.noConfusion h
        | fail e' =>
          rw [hev] at h
          exact Res.noConfusion h
        | crash =>
          rw [hev] at h
          exact Res.noConfusion h
        | fuelOut =>
          rw [hev] at h
          exact Res.noConfusion h

/-- Unfolding of call once the callee is resolved to a Function value in the
caller's active frame. -/
theorem call_unfold_resolved (n : Nat) (name : Name) (args : List Expression)
    (env : Environment) (f : Frame) (func : Function)
    (hf : env.getFrame? env.scopeKey = some f)
    (hv : mapGet f.variables name = some (.Func func)) :
    call (n + 1) name args env =
      evBind (copyChain n env env.scopeKey Environment.new) (fun newEnv =>
        evBind (match func.params with
                | some ps => bindArgs n ps args env newEnv
                | none => .ok newEnv) (fun newEnv2 =>
          match func.body with
          | none => .crash
          | some body =>
            evBind (execute n body newEnv2) (fun cf =>
              match cf with
              | .Return v => .ok v
              | .Continue _ => .fail ("Function did not return a value", none)))) := by
  simp only [call, hf, hv]

/-- C8: arguments of a call are paired with the declared parameters by a
zip, so the pairing is truncated to the shorter of the two lists with no
arity failure (surplus arguments are never evaluated, surplus parameters
are silently left unbound), and each paired argument is evaluated in the
caller's environment and inserted under its parameter name in declaration
order; consequently a resolved call behaves identically on an argument list
and on its truncation to the parameter count. -/
theorem c8_call_binding_truncation (n : Nat) (ps : List (Name × Ty))
    (args : List Expression) (env acc : Environment) (vs : List EnvValue)
    (f : Frame) (func : Function) (name : Name) :
    (bindArgs n ps args env acc = bindArgs n ps (args.take ps.length) env acc)
  ∧ (bindArgs n ps args env acc = bindArgs n (ps.take args.length) args env acc)
  ∧ (evalArgsSpec n ((ps.zip args).map Prod.snd) env = .ok vs →
       bindArgs n ps args env acc =
         .ok (insertAll ((ps.zip args).map (fun pa => pa.1.1)) vs acc))
  ∧ (env.getFrame? env.scopeKey = some f →
     mapGet f.variables name = some (.Func func) →
     func.params = some ps →
       call (n + 1) name args env = call (n + 1) name (args.take ps.length) env) := by
  refine ⟨bindArgs_take_args n ps args env acc,
          bindArgs_take_params n ps args env acc,
          fun h => bindArgs_spec n ps args env acc vs h,
          fun hf hv hp => ?_⟩
  rw [call_unfold_resolved n name args env f func hf hv,
      call_unfold_resolved n name (args.take ps.length) env f func hf hv]
  refine evBind_congr _ _ _ (fun newEnv => ?_)
  simp only [hp]
  rw [bindArgs_take_args n ps args env newEnv]

/-- Parameter list of the C8 witness function. -/
def c8Ps : List (Name × Ty) := [("a", .TInteger), ("b", .TInteger)]

/-- Argument list of the C8 witness call: one surplus argument that is an
unbound variable, hence unevaluable. -/
def c8Args : List Expression := [.CInt 1, .CInt 2, .Var "zzz"]

/-- Two-parameter function used by the C8 witness. -/
def c8Fn : Function := .mk "f" none (some c8Ps) (some (.Return (.CInt 0)))

/-- Caller environment of the C8 witness, with c8Fn bound under f. -/
def c8Env : Environment := Environment.new.insertVariable "f" (.Func c8Fn)

/-- Active frame of c8Env. -/
def c8Frame : Frame := .mk none none [("f", .Func c8Fn)] []

/-- Witness for c8_call_binding_truncation: binding two parameters against
three arguments ignores (and never evaluates) the unbound third argument,
produces the in-order bindings of the first two, and the resolved call is
insensitive to the surplus argument. -/
theorem c8_call_binding_truncation_witness :
    (bindArgs 3 c8Ps c8Args Environment.new Environment.new
       = bindArgs 3 c8Ps [.CInt 1, .CInt 2] Environment.new Environment.new)
  ∧ (bindArgs 3 c8Ps c8Args Environment.new Environment.new
       = .ok (insertAll ["a", "b"] [.Exp (.CInt 1), .Exp (.CInt 2)] Environment.new))
  ∧ (call 4 "f" c8Args c8Env = call 4 "f" [.CInt 1, .CInt 2] c8Env) :=
  ⟨(c8_call_binding_truncation 3 c8Ps c8Args Environment.new Environment.new
      [.Exp (.CInt 1), .Exp (.CInt 2)] c8Frame c8Fn "f").1,
   (c8_call_binding_truncation 3 c8Ps c8Args Environment.new Environment.new
      [.Exp (.CInt 1), .Exp (.CInt 2)] c8Frame c8Fn "f").2.2.1 rfl,
   (c8_call_binding_truncation 3 c8Ps c8Args c8Env c8Env
      [.Exp (.CInt 1), .Exp (.CInt 2)] c8Frame c8Fn "f").2.2.2 rfl rfl rfl⟩

/-- An environment whose active scope key has a frame in the stack (always
true for environments built by the interpreter; insert_variable silently
no-ops without it). -/
def hasActive (env : Environment) : Prop :=
  ∃ fr, env.getFrame? env.scopeKey = some fr

/-- Reading back through a replace-insert: the inserted key returns the new
value, other keys are unchanged. -/
theorem mapGet_mapInsert {α β : Type} [DecidableEq α] (m : List (α × β))
    (k k' : α) (v : β) :
    mapGet (mapInsert m k v) k' = if k = k' then some v else mapGet m k' := by
  induction m with
  | nil => rfl
  | cons hd tl ih =>
    obtain ⟨k0, v0⟩ := hd
    by_cases h1 : k0 = k
    · subst h1
      by_cases h2 : k0 = k' <;> simp [mapInsert, mapGet, h2]
    · by_cases h2 : k0 = k'
      · subst h2
        have h3 : ¬ k = k0 := fun hh => h1 hh.symm
        simp [mapInsert, mapGet, h1, h3]
      · simp [mapInsert, mapGet, h1, h2, ih]

/-- Reading the adjusted key back through mapAdjust. -/
theorem mapGet_mapAdjust_self {α β : Type} [DecidableEq α] (m : List (α × β))
    (k : α) (f : β → β) :
    mapGet (mapAdjust m k f) k = (mapGet m k).map f := by
  induction m with
  | nil => rfl
  | cons hd tl ih =>
    obtain ⟨k0, v0⟩ := hd
    by_cases h1 : k0 = k
    · subst h1
      simp [mapAdjust, mapGet]
    · simp [mapAdjust, mapGet, h1, ih]

/-- insert_variable does not move the active scope key. -/
theorem insertVariable_scopeKey (env : Environment) (nm : Name) (v : EnvValue) :
    (env.insertVariable nm v).scopeKey = env.scopeKey := rfl

/-- The active frame survives insert_variable. -/
theorem insertVariable_hasActive (env : Environment) (nm : Name) (v : EnvValue)
    (h : hasActive env) : hasActive (env.insertVariable nm v) := by
  obtain ⟨fr, hfr⟩ := h
  have hfr' : mapGet env.stack env.scopeKey = some fr := hfr
  refine ⟨.mk fr.parentFunction fr.parentKey (mapInsert fr.variables nm v) fr.tests, ?_⟩
  show mapGet (mapAdjust env.stack env.scopeKey _) env.scopeKey = _
  rw [mapGet_mapAdjust_self, hfr']
  rfl

/-- Variable lookup in the active frame after insert_variable. -/
theorem searchFrameOpt_insertVariable (env : Environment) (nm : Name)
    (v : EnvValue) (name : Name) (h : hasActive env) :
    (env.insertVariable nm v).searchFrameOpt name =
      if nm = name then some v else env.searchFrameOpt name := by
  obtain ⟨fr, hfr⟩ := h
  have hfr' : mapGet env.stack env.scopeKey = some fr := hfr
  show (match mapGet (mapAdjust env.stack env.scopeKey _) env.scopeKey with
        | none => none
        | some f => mapGet f.variables name) = _
  rw [mapGet_mapAdjust_self, hfr']
  show mapGet (mapInsert fr.variables nm v) name = _
  rw [mapGet_mapInsert]
  have hsearch : env.searchFrameOpt name = mapGet fr.variables name := by
    unfold Environment.searchFrameOpt
    rw [hfr]
  rw [hsearch]

/-- Specification fold for C9, per frame: the last Function value inserted
for a name while walking one frame's bindings (non-Function bindings are
skipped, not overwriting). -/
def lastFuncInVars : List (Name × EnvValue) → Name → Option Function → Option Function
  | [], _, acc => acc
  | (k, v) :: rest, name, acc =>
    lastFuncInVars rest name
      (if k = name then (match v with | .Func g => some g | _ => acc) else acc)

/-- Specification fold for C9, along the chain: frames processed in
traversal order (active frame first), later frames overwriting earlier
Function bindings. -/
def specLastFuncChain : List Frame → Name → Option Function → Option Function
  | [], _, acc => acc
  | f :: rest, name, acc =>
    specLastFuncChain rest name (lastFuncInVars f.variables name acc)

/-- The last-write-wins Function binding for a name along a frame chain, as
the specification describes it. -/
def specLastFuncBinding (frames : List Frame) (name : Name) : Option Function :=
  specLastFuncChain frames name none

/-- The environment built by folding the function-copy loop over a list of
frames. -/
def chainCollect : List Frame → Environment → Environment
  | [], acc => acc
  | f :: rest, acc => chainCollect rest (copyFuncsList f.variables acc)

/-- The seed of lastFuncInVars only matters when the list contributes no
Function binding for the name. -/
theorem lastFuncInVars_acc (vars : List (Name × EnvValue)) (name : Name)
    (a : Option Function) :
    lastFuncInVars vars name a =
      match lastFuncInVars vars name none with
      | some g => some g
      | none => a := by
  induction vars generalizing a with
  | nil => rfl
  | cons hd rest ih =>
    obtain ⟨k, v⟩ := hd
    simp only [lastFuncInVars]
    rw [ih, ih (if k = name then (match v with | .Func g => some g | _ => none) else none)]
    by_cases hk : k = name
    · cases hL : lastFuncInVars rest name none <;> cases v <;> simp [hk, hL]
    · cases hL : lastFuncInVars rest name none <;> simp [hk, hL]

/-- The seed of specLastFuncChain only matters when no frame contributes a
Function binding for the name. -/
theorem specLastFuncChain_acc (frames : List Frame) (name : Name)
    (a : Option Function) :
    specLastFuncChain frames name a =
      match specLastFuncChain frames name none with
      | some g => some g
      | none => a := by
  induction frames generalizing a with
  | nil => rfl
  | cons f rest ih =>
    simp only [specLastFuncChain]
    rw [ih, ih (lastFuncInVars f.variables name none)]
    cases hS : specLastFuncChain rest name none
    · rw [lastFuncInVars_acc]
    · rfl

/-- The active frame survives the per-frame copy loop. -/
theorem copyFuncsList_hasActive (vars : List (Name × EnvValue))
    (acc : Environment) (h : hasActive acc) :
    hasActive (copyFuncsList vars acc) := by
  induction vars generalizing acc with
  | nil => exact h
  | cons hd rest ih =>
    obtain ⟨k, v⟩ := hd
    cases v with
    | Exp e => exact ih acc h
    | Func g => exact ih _ (insertVariable_hasActive acc k (.Func g) h)
    | TestEnv t => exact ih acc h

/-- What one frame's copy loop leaves in the accumulator for a given name:
the frame's last Function binding for it, or whatever the accumulator
already had. -/
theorem copyFuncsList_get (vars : List (Name × EnvValue)) (acc : Environment)
    (name : Name) (h : hasActive acc) :
    (copyFuncsList vars acc).searchFrameOpt name =
      match lastFuncInVars vars name none with
      | some g => some (.Func g)
      | none => acc.searchFrameOpt name := by
  induction vars generalizing acc with
  | nil => rfl
  | cons hd rest ih =>
    obtain ⟨k, v⟩ := hd
    cases v with
    | Exp e =>
      show (copyFuncsList rest acc).searchFrameOpt name = _
      rw [ih acc h]
      simp only [lastFuncInVars]
      by_cases hk : k = name <;> simp [hk]
    | TestEnv t =>
      show (copyFuncsList rest acc).searchFrameOpt name = _
      rw [ih acc h]
      simp only [lastFuncInVars]
      by_cases hk : k = name <;> simp [hk]
    | Func g =>
      show (copyFuncsList rest (acc.insertVariable k (.Func g))).searchFrameOpt name = _
      rw [ih _ (insertVariable_hasActive acc k (.Func g) h)]
      simp only [lastFuncInVars]
      rw [searchFrameOpt_insertVariable acc k (.Func g) name h]
      by_cases hk : k = name
      · rw [if_pos hk,
            (if_pos hk : (if k = name then (some g : Option Function) else none) = some g),
            lastFuncInVars_acc rest name (some g)]
        cases hL : lastFuncInVars rest name none <;> simp [hL]
      · rw [if_neg hk,
            (if_neg hk : (if k = name then (some g : Option Function) else none) = none)]

/-- The active frame survives the whole chain fold. -/
theorem chainCollect_hasActive (frames : List Frame) (acc : Environment)
    (h : hasActive acc) : hasActive (chainCollect frames acc) := by
  induction frames generalizing acc with
  | nil => exact h
  | cons f rest ih => exact ih _ (copyFuncsList_hasActive f.variables acc h)

/-- What the whole chain fold leaves in the accumulator for a given name:
the chain's last-write-wins Function binding, or the accumulator's previous
binding. -/
theorem chainCollect_get (frames : List Frame) (acc : Environment)
    (name : Name) (h : hasActive acc) :
    (chainCollect frames acc).searchFrameOpt name =
      match specLastFuncChain frames name none with
      | some g => some (.Func g)
      | none => acc.searchFrameOpt name := by
  induction frames generalizing acc with
  | nil => rfl
  | cons f rest ih =>
    show (chainCollect rest (copyFuncsList f.variables acc)).searchFrameOpt name = _
    rw [ih _ (copyFuncsList_hasActive f.variables acc h)]
    simp only [specLastFuncChain]
    rw [specLastFuncChain_acc rest name (lastFuncInVars f.variables name none)]
    cases hS : specLastFuncChain rest name none
    · rw [copyFuncsList_get f.variables acc name h]
    · rfl

/-- The function-copy chain walk of call equals the fold of the per-frame
copy loop over the frames listed by chainFrames. -/
theorem copyChain_eq_chainCollect (n : Nat) (env : Environment) :
    ∀ (key : Name × Int) (acc : Environment) (frames : List Frame),
      chainFrames n env key = .ok frames →
      copyChain n env key acc = .ok (chainCollect frames acc) := by
  induction n with
  | zero => exact fun key acc frames h => Res.noConfusion h
  | succ n ih =>
    intro key acc frames h
    have hu : chainFrames (n + 1) env key =
        (match env.getFrame? key with
         | none => .crash
         | some f =>
           match f.parentKey with
           | some p => evBind (chainFrames n env p) (fun fs => .ok (f :: fs))
           | none => .ok [f]) := rfl
    rw [hu] at h
    cases hg : env.getFrame? key with
    | none =>
      rw [hg] at h
      exact Res.noConfusion h
    | some f =>
      rw [hg] at h
      simp only [] at h
      cases hp : f.parentKey with
      | none =>
        rw [hp] at h
        simp only [] at h
        injection h with h'
        subst h'
        show copyChain (n + 1) env key acc = _
        have hc : copyChain (n + 1) env key acc =
            (match env.getFrame? key with
             | none => .crash
             | some fr =>
               match fr.parentKey with
               | some p => copyChain n env p (copyFuncsList fr.variables acc)
               | none => .ok (copyFuncsList fr.variables acc)) := rfl
        rw [hc, hg]
        simp only [hp]
        rfl
      | some p =>
        rw [hp] at h
        simp only [] at h
        cases hcf : chainFrames n env p with
        | ok fs =>
          rw [hcf] at h
          simp only [evBind] at h
          injection h with h'
          subst h'
          have hc : copyChain (n + 1) env key acc =
              (match env.getFrame? key with
               | none => .crash
               | some fr =>
                 match fr.parentKey with
                 | some p' => copyChain n env p' (copyFuncsList fr.variables acc)
                 | none => .ok (copyFuncsList fr.variables acc)) := rfl
          rw [hc, hg]
          simp only [hp]
          exact ih p (copyFuncsList f.variables acc) fs hcf
        | fail e' =>
          rw [hcf] at h
          simp only [evBind] at h
          exact Res.noConfusion h
        | crash =>
          rw [hcf] at h
          simp only [evBind] at h
          exact Res.noConfusion h
        | fuelOut =>
          rw [hcf] at h
          simp only [evBind] at h
          exact Res.noConfusion h

/-- A fresh environment binds nothing. -/
theorem searchFrameOpt_new (name : Name) :
    Environment.new.searchFrameOpt name = none := rfl

/-- C9: when the caller's frame chain is well formed (chainFrames lists its
frames), the function-copy phase of call succeeds and builds exactly the
fold of the copy loop over those frames, and the fresh environment's root
frame binds a name if and only if the chain has a Function-valued binding
for it, namely the last-write-wins one in traversal order; every binding it
holds is Function-valued, so no plain variable of the caller is visible in
the callee. -/
theorem c9_call_function_visibility (n : Nat) (env : Environment)
    (frames : List Frame) (name : Name)
    (h : chainFrames n env env.scopeKey = .ok frames) :
    copyChain n env env.scopeKey Environment.new =
      .ok (chainCollect frames Environment.new)
  ∧ (chainCollect frames Environment.new).searchFrameOpt name
      = (specLastFuncBinding frames name).map EnvValue.Func := by
  constructor
  · exact copyChain_eq_chainCollect n env env.scopeKey Environment.new frames h
  · rw [chainCollect_get frames Environment.new name ⟨Frame.new none none, rfl⟩]
    cases hS : specLastFuncChain frames name none <;>
      simp [specLastFuncBinding, hS, searchFrameOpt_new]

/-- Scope function of the C9 witness caller. -/
def c9FnG : Function := .mk "g" none none none

/-- Root-frame definition of f in the C9 witness (the one the copy must
keep, root frames being processed last). -/
def c9FnA : Function := .mk "f" none none (some (.Return (.CInt 1)))

/-- Active-frame definition of f in the C9 witness (overwritten by the
root's). -/
def c9FnB : Function := .mk "f" none none (some (.Return (.CInt 2)))

/-- Root frame of the C9 witness: one function f and one plain variable x. -/
def c9FrameMain : Frame := .mk none none [("f", .Func c9FnA), ("x", .Exp (.CInt 5))] []

/-- Active frame of the C9 witness: a shadowing f and a plain variable y. -/
def c9FrameG : Frame :=
  .mk (some Function.new) (some ("__main__", 0)) [("f", .Func c9FnB), ("y", .Exp (.CInt 6))] []

/-- Two-frame caller environment of the C9 witness, active key (g, 1). -/
def c9Env : Environment :=
  .mk c9FnG 1 [(("__main__", 0), c9FrameMain), (("g", 1), c9FrameG)] []

/-- Witness for c9_call_function_visibility: the copy walks the two-frame
chain, the root definition of f wins over the active frame's, and the plain
variables x and y are not copied. -/
theorem c9_call_function_visibility_witness :
    (copyChain 3 c9Env c9Env.scopeKey Environment.new =
       .ok (chainCollect [c9FrameG, c9FrameMain] Environment.new)
   ∧ (chainCollect [c9FrameG, c9FrameMain] Environment.new).searchFrameOpt "f"
       = some (.Func c9FnA))
  ∧ (chainCollect [c9FrameG, c9FrameMain] Environment.new).searchFrameOpt "x" = none
  ∧ (chainCollect [c9FrameG, c9FrameMain] Environment.new).searchFrameOpt "y" = none :=
  ⟨⟨(c9_call_function_visibility 3 c9Env [c9FrameG, c9FrameMain] "f" rfl).1,
    (c9_call_function_visibility 3 c9Env [c9FrameG, c9FrameMain] "f" rfl).2⟩,
   (c9_call_function_visibility 3 c9Env [c9FrameG, c9FrameMain] "x" rfl).2,
   (c9_call_function_visibility 3 c9Env [c9FrameG, c9FrameMain] "y" rfl).2⟩

end RPyInterp
